import Mathlib

/-!
Verification development for the fuzzy-logic artificial-pancreas repository.

The hierarchical fuzzy controller (src/controllers/fuzzy_controller.py) is
embedded over exact rationals.  The scikit-fuzzy library is an external
collaborator of the repository; its inference semantics are modelled from the
spec, section 4.1: membership functions are evaluated directly from their
breakpoints, rule strengths combine conjunction by minimum and disjunction by
maximum, each rule clips its consequent set at the firing strength, rules
sharing an output aggregate by pointwise maximum, and defuzzification is the
centroid (area-weighted mean) of the aggregated envelope sampled on the output
universe grid, taken piecewise-linearly between grid points.  A degenerate
all-zero envelope has no centroid, which is modelled by `Option`.
-/

set_option maxRecDepth 10000
set_option maxHeartbeats 4000000

namespace ArtificialPancreas

/-- Maximum of two rationals, written explicitly so it evaluates. -/
def qmax (a b : ℚ) : ℚ := if a ≤ b then b else a

/-- `chainLe l = true` iff consecutive entries of `l` are non-decreasing. -/
def chainLe : List ℚ → Bool
  | a :: b :: rest => if a ≤ b then chainLe (b :: rest) else false
  | _ => true

/-- Minimum of two rationals, written explicitly so it evaluates. -/
def qmin (a b : ℚ) : ℚ := if a ≤ b then a else b

/-- `np.clip(x, lo, hi) = min(hi, max(x, lo))`. -/
def clip (x lo hi : ℚ) : ℚ := qmin hi (qmax x lo)

/-- Triangular membership function with breakpoints `a ≤ b ≤ c`
(`skfuzzy.trimf`): 1 at `b`, linear ramps on `(a, b)` and `(b, c)`, 0 outside;
a degenerate side (`a = b` or `b = c`) is a step. -/
def trimf (a b c x : ℚ) : ℚ :=
  if x = b then 1
  else if a < x ∧ x < b then (x - a) / (b - a)
  else if b < x ∧ x < c then (c - x) / (c - b)
  else 0

/-- Trapezoidal membership function with breakpoints `a ≤ b ≤ c ≤ d`
(`skfuzzy.trapmf`): 1 on `[b, c]`, ramps on `(a, b)` and `(c, d)`, 0 outside. -/
def trapmf (a b c d x : ℚ) : ℚ :=
  if x < b then (if a < x then (x - a) / (b - a) else 0)
  else if x ≤ c then 1
  else if x < d then (d - x) / (d - c)
  else 0

/-- Ceiling of a positive rational, written explicitly so it evaluates. -/
def ceilPos (q : ℚ) : ℕ := (q.num.toNat + q.den - 1) / q.den

/-- Output universe `np.arange(0, max_dose + 0.1, 0.01)`: the grid
`0, 0.01, 0.02, …` with `⌈(max_dose + 0.1)·100⌉` points. -/
def outGrid (maxDose : ℚ) : List ℚ :=
  (List.range (ceilPos ((maxDose + 1/10) * 100))).map (fun i => (i : ℚ) / 100)

/-- Area under the straight segment from `(x1, y1)` to `(x2, y2)`. -/
def segArea (x1 y1 x2 y2 : ℚ) : ℚ := (x2 - x1) * (y1 + y2) / 2

/-- First moment `∫ x·y dx` along the straight segment from `(x1, y1)` to
`(x2, y2)`. -/
def segMoment (x1 y1 x2 y2 : ℚ) : ℚ :=
  (x2 - x1) * (x1 * (2 * y1 + y2) + x2 * (y1 + 2 * y2)) / 6

/-- Sum a per-segment quantity over consecutive pairs of sampled points. -/
def sumSegs (g : ℚ × ℚ → ℚ × ℚ → ℚ) : List (ℚ × ℚ) → ℚ
  | p :: q :: rest => g p q + sumSegs g (q :: rest)
  | _ => 0

/-- Centroid defuzzification of `f` sampled on `grid`, piecewise-linear between
grid points; `none` when the aggregated envelope has zero area (degenerate
inference: no rule fired). -/
def defuzzCentroid (grid : List ℚ) (f : ℚ → ℚ) : Option ℚ :=
  let pts := grid.map (fun x => (x, f x))
  let area := sumSegs (fun p q => segArea p.1 p.2 q.1 q.2) pts
  if area = 0 then none
  else some (sumSegs (fun p q => segMoment p.1 p.2 q.1 q.2) pts / area)

/-- Aggregated firing strength of each of the six output sets
(Zero, Very Low, Low, Moderate, High, Very High). -/
structure Strengths where
  z : ℚ
  vl : ℚ
  low : ℚ
  m : ℚ
  hi : ℚ
  vh : ℚ
  deriving DecidableEq

/-- Aggregated output envelope: each consequent set (breakpoints from the
source, identical for `pre_dose` and `insulin_dose`) clipped at its aggregated
strength, combined by pointwise maximum. -/
def envelope (s : Strengths) (x : ℚ) : ℚ :=
  qmax (qmin s.z (trimf 0 0 (1/50) x))
    (qmax (qmin s.vl (trimf 0 (1/10) (1/5) x))
      (qmax (qmin s.low (trimf (3/20) (3/10) (9/20) x))
        (qmax (qmin s.m (trimf (2/5) (11/20) (7/10) x))
          (qmax (qmin s.hi (trimf (3/5) (4/5) (9/10) x))
            (qmin s.vh (trimf (17/20) (19/20) 1 x))))))

/-- Stage-1 rule base (`HierarchicalFIS._build_fis1`): glucose level sets
VL/L/N/H/VH, rate sets N/Z/P/VP, and the 15 rules, aggregated per consequent. -/
def fis1Strengths (bg_level bg_rate : ℚ) : Strengths :=
  let vl := trapmf 0 0 50 70 bg_level
  let lo := trimf 60 75 90 bg_level
  let n := trimf 85 100 115 bg_level
  let hig := trimf 110 130 160 bg_level
  let vh := trapmf 150 180 400 400 bg_level
  let rN := trapmf (-5) (-5) (-1/2) (-1/10) bg_rate
  let rZ := trimf (-3/20) 0 (3/20) bg_rate
  let rP := trimf (1/10) (2/5) (7/10) bg_rate
  let rVP := trapmf (3/5) 1 5 5 bg_rate
  { z := qmax vl (qmax (qmin lo (qmax rN rZ)) (qmax (qmin lo rP) (qmin n rN)))
    vl := qmax (qmin lo rVP) (qmin n rZ)
    low := qmin hig rN
    m := qmax (qmin n rP) (qmax (qmin hig rZ) (qmin vh rN))
    hi := qmax (qmin n rVP) (qmin vh rZ)
    vh := qmax (qmin hig rP) (qmax (qmin hig rVP) (qmin vh (qmax rP rVP))) }

/-- Stage-2 rule base (`HierarchicalFIS._build_fis2`): pre-dose sets
Z/VL/L/M/H/VH, acceleration sets N/Z/P, and the 18 rules, aggregated per
consequent. -/
def fis2Strengths (pre_dose bg_accel : ℚ) : Strengths :=
  let pZ := trimf 0 0 (1/20) pre_dose
  let pVL := trimf 0 (1/5) (2/5) pre_dose
  let pL := trimf (3/10) (1/2) (7/10) pre_dose
  let pM := trimf (3/5) (17/20) (11/10) pre_dose
  let pH := trimf 1 (6/5) (7/5) pre_dose
  let pVH := trimf (13/10) (29/20) (3/2) pre_dose
  let aN := trapmf (-1) (-1) (-3/200) (-1/500) bg_accel
  let aZ := trimf (-1/100) 0 (1/100) bg_accel
  let aP := trapmf (1/500) (3/200) 1 1 bg_accel
  { z := qmax pZ (qmin pVL aN)
    vl := qmax (qmin pVL aZ) (qmin pL aN)
    low := qmax (qmin pVL aP) (qmax (qmin pL aZ) (qmin pM aN))
    m := qmax (qmin pL aP) (qmax (qmin pM aZ) (qmin pH aN))
    hi := qmax (qmin pM aP) (qmax (qmin pH aZ) (qmin pVH aN))
    vh := qmax (qmin pH aP) (qmin pVH (qmax aZ aP)) }

/-- Defuzzify an aggregated strength vector over the output universe. -/
def defuzzEnv (maxDose : ℚ) (s : Strengths) : Option ℚ :=
  defuzzCentroid (outGrid maxDose) (envelope s)

/-- Stage-1 inference: `(bg_level, bg_rate) ↦ pre_dose` (crisp), `none` when
degenerate. -/
def fis1Out (maxDose bg_level bg_rate : ℚ) : Option ℚ :=
  defuzzEnv maxDose (fis1Strengths bg_level bg_rate)

/-- The tail of `compute_dose` after stage-1 inference: the `except KeyError`
handler substitutes 0 for a degenerate stage result, the pre-dose is clipped to
`[0, max_dose]`, stage 2 runs, its degenerate case again substitutes 0, and the
final dose is clipped to `[0, max_dose]`. -/
def stage2Dose (maxDose : ℚ) (stage1Result : Option ℚ) (bg_accel : ℚ) : ℚ :=
  let pre_dose := clip (stage1Result.getD 0) 0 maxDose
  let stage2Result := defuzzEnv maxDose (fis2Strengths pre_dose bg_accel)
  clip (stage2Result.getD 0) 0 maxDose

/-- `HierarchicalFIS.compute_dose`: clamp the inputs to their universes, run
stage 1 then stage 2, substituting 0 for a degenerate stage, and clip the
result to `[0, max_dose]`. -/
def compute_dose (maxDose bg_level bg_rate bg_accel : ℚ) : ℚ :=
  stage2Dose maxDose (fis1Out maxDose (clip bg_level 0 400) (clip bg_rate (-5) 5))
    (clip bg_accel (-1) 1)

/-! ## Hierarchical fuzzy controller wrapper (`HierarchicalFuzzyController`) -/

/-- Per-episode mutable state of `HierarchicalFuzzyController`.  `prev_state`
models the attribute of that name first created by `reset` (absent before). -/
structure ControllerState where
  init_state : ℚ
  state : ℚ
  prev_bg : Option ℚ
  prev_rate : ℚ
  prev_state : Option ℚ

/-- `HierarchicalFuzzyController.__init__`: stores the given state and starts
with no previous glucose and previous rate 0. -/
def ControllerState.make (init_state : ℚ) : ControllerState :=
  { init_state := init_state, state := init_state, prev_bg := none,
    prev_rate := 0, prev_state := none }

/-- `HierarchicalFuzzyController.policy`: derive rate and acceleration from
the stored previous glucose and previous rate (both fall back to 0 when no
previous glucose is stored), store the new previous glucose and rate, and
return the basal action `dose / sample_time` computed by the hierarchical FIS
with its default `max_dose = 0.4`. -/
def policy (c : ControllerState) (bg sample_time : ℚ) : ℚ × ControllerState :=
  let rate := match c.prev_bg with
    | none => 0
    | some prev => (bg - prev) / sample_time
  let accel := match c.prev_bg with
    | none => 0
    | some _ => (rate - c.prev_rate) / sample_time
  (compute_dose (2/5) bg rate accel / sample_time,
   { c with prev_bg := some bg, prev_rate := rate })

/-- `HierarchicalFuzzyController.reset`: restores `state`, clears `prev_bg`,
and writes 0 into the attribute `prev_state`; the field `prev_rate` is not
assigned. -/
def reset (c : ControllerState) : ControllerState :=
  { c with state := c.init_state, prev_bg := none, prev_state := some 0 }

/-! ## Scoring (`tuning.cost_function`) -/

/-- `tuning.cost_function`: per-sample error from the reference, multiplied by
10 where the sample is strictly below the floor, then the square root of the
mean of the squared errors. -/
noncomputable def cost_function (glucose_trace : List ℝ)
    (ref_level min_level : ℝ) : ℝ :=
  let err := glucose_trace.map
    (fun g => if g < min_level then 10 * (g - ref_level) else g - ref_level)
  Real.sqrt ((err.map (fun e => e ^ 2)).sum / glucose_trace.length)

/-- Modelled from the spec: "root-mean-square deviation from ref, with a 10×
penalty multiplier applied to the squared error term for any sample below
floor" — for comparison with the source's actual computation. -/
noncomputable def cost_function_spec (glucose_trace : List ℝ)
    (ref_level min_level : ℝ) : ℝ :=
  Real.sqrt ((glucose_trace.map (fun g =>
    if g < min_level then 10 * (g - ref_level) ^ 2 else (g - ref_level) ^ 2)).sum
      / glucose_trace.length)

/-! ## Meal absorption (`patient_model.meal_absorption`) and the driver's
meal-rate accumulation (`simulation.simulate_controller`) -/

/-- `patient_model.meal_absorption`: glucose appearance rate in mg/dL per
minute at time `t` (hours) for a meal of `carbs` grams at `meal_time` (hours),
with time constant `tau` (minutes) and 3.5 mg/dL per gram of carbohydrate. -/
noncomputable def meal_absorption (t meal_time carbs tau : ℝ) : ℝ :=
  if t < meal_time then 0
  else carbs * (7/2) / tau * Real.exp (-((t - meal_time) * 60) / tau)

/-- The driver's meal-rate accumulation: starting from 0, add the absorption
kernel of each scheduled meal `(meal_time, carbs)` in turn. -/
noncomputable def meal_rate_total (schedule : List (ℝ × ℝ)) (tau t : ℝ) : ℝ :=
  schedule.foldl (fun acc meal => acc + meal_absorption t meal.1 meal.2 tau) 0

/-! ## Closed-loop driver rate estimation (`simulation.simulate_controller`) -/

/-- The glucose value the driver feeds the controller at iteration `i`:
`G_trace[i-1] if i > 0 else 90`, i.e. the previous iteration's realized
glucose, with a hard-coded 90 on the first iteration. -/
noncomputable def driverG (G_trace : ℕ → ℝ) (i : ℕ) : ℝ :=
  if i = 0 then 90 else G_trace (i - 1)

/-- The driver's `(G_prev, rate_prev)` pair entering iteration `i`; it starts
as `(90, 0)` and each iteration stores its own glucose value and rate. -/
noncomputable def driverPrev (G_trace : ℕ → ℝ) (dt : ℝ) : ℕ → ℝ × ℝ
  | 0 => (90, 0)
  | i + 1 =>
    (driverG G_trace i,
     (driverG G_trace i - (driverPrev G_trace dt i).1) / (dt * 60))

/-- `bg_rate = (G - G_prev) / (patient.dt * 60)` at iteration `i`. -/
noncomputable def bg_rate (G_trace : ℕ → ℝ) (dt : ℝ) (i : ℕ) : ℝ :=
  (driverG G_trace i - (driverPrev G_trace dt i).1) / (dt * 60)

/-- `bg_accel = (bg_rate - rate_prev) / (patient.dt * 60)` at iteration `i`. -/
noncomputable def bg_accel (G_trace : ℕ → ℝ) (dt : ℝ) (i : ℕ) : ℝ :=
  (bg_rate G_trace dt i - (driverPrev G_trace dt i).2) / (dt * 60)

/-! ## Patient physiology model (`patient_model.PatientModel`)

`scipy.integrate.odeint` is an external solver; each `odeint(self.dynamics,
state0, [0, dt], args=(dose, meal_rate))` call is modelled as an opaque
integrator mapping the model, the current state, the dose and the meal rate to
the new state. -/

/-- State and parameters of `PatientModel`. -/
structure PatientModel where
  G : ℝ
  X : ℝ
  I : ℝ
  Gb : ℝ
  Ib : ℝ
  dt : ℝ
  t : ℝ
  p1_per_min : ℝ
  p2_per_min : ℝ
  p3_per_min : ℝ
  n_per_min : ℝ
  gamma_mU_per_unit : ℝ

/-- `PatientModel.__init__`: stores the arguments and the fixed Bergman
parameters; no argument is validated or rejected. -/
noncomputable def PatientModel.make
    (initial_glucose initial_insulin dt_hours : ℝ) : PatientModel :=
  { G := initial_glucose, X := 0, I := initial_insulin, Gb := 90,
    Ib := initial_insulin, dt := dt_hours, t := 0,
    p1_per_min := 28/1000, p2_per_min := 25/1000, p3_per_min := 5/100000,
    n_per_min := 1/5, gamma_mU_per_unit := 20 }

/-- The step length in minutes used by `PatientModel.dynamics` to convert the
dose: `dt * 60 if dt > 0 else 1`, then a second guard replacing a non-positive
result by 1. -/
noncomputable def dtMinutes (dt : ℝ) : ℝ :=
  let d := if 0 < dt then dt * 60 else 1
  if d ≤ 0 then 1 else d

/-- `PatientModel.dynamics`: the three-state Bergman right-hand side with all
per-minute rates converted to per-hour; `tm` is the (unused) solver time. -/
noncomputable def PatientModel.dynamics (pm : PatientModel) (state : ℝ × ℝ × ℝ)
    (_tm insulin_dose meal_rate : ℝ) : ℝ × ℝ × ℝ :=
  let p1 := pm.p1_per_min * 60
  let p2 := pm.p2_per_min * 60
  let p3 := pm.p3_per_min * 60
  let n := pm.n_per_min * 60
  let meal_rate_per_hour := meal_rate * 60
  let units_per_minute := insulin_dose / dtMinutes pm.dt
  let u_mU_per_hour := pm.gamma_mU_per_unit * units_per_minute * 60
  (-(p1 + state.2.1) * state.1 + p1 * pm.Gb + meal_rate_per_hour,
   -p2 * state.2.1 + p3 * (state.2.2 - pm.Ib),
   -n * (state.2.2 - pm.Ib) + u_mU_per_hour)

/-- An opaque one-step integrator standing for
`odeint(self.dynamics, state0, [0, dt], args=(dose, meal_rate))[-1]`. -/
def Integrator : Type :=
  PatientModel → (ℝ × ℝ × ℝ) → ℝ → ℝ → ℝ × ℝ × ℝ

/-- `PatientModel.step`: integrate one step and store the new `(G, X, I)` in
place, advance `t` by `dt`, and return the new glucose. -/
noncomputable def PatientModel.step (odeint : Integrator) (pm : PatientModel)
    (insulin_dose meal_rate : ℝ) : ℝ × PatientModel :=
  let s := odeint pm (pm.G, pm.X, pm.I) insulin_dose meal_rate
  (s.1, { pm with G := s.1, X := s.2.1, I := s.2.2, t := pm.t + pm.dt })

/-- Length of `np.arange(0, 24, dt)` for a positive step. -/
noncomputable def numSteps (dt : ℝ) : ℕ := Nat.ceil ((24:ℝ) / dt)

/-- The loop of `PatientModel.simulate`: walk the remaining time indices,
integrating from a local state, recording the traces, and assigning only the
time field of the model. -/
noncomputable def simulateAux (odeint : Integrator) (doses : List ℝ)
    (sched : List (ℝ × ℝ)) :
    List ℕ → (ℝ × ℝ × ℝ) → PatientModel → List ℝ → List ℝ →
    List ℝ × List ℝ × PatientModel
  | [], _, pm, gAcc, iAcc => (gAcc.reverse, iAcc.reverse, pm)
  | i :: rest, s, pm, gAcc, iAcc =>
    let tNow := (i : ℝ) * pm.dt
    let meal_rate := meal_rate_total sched 45 tNow
    let dose := doses.getD i 0
    let s2 := odeint pm s dose meal_rate
    simulateAux odeint doses sched rest s2 { pm with t := tNow + pm.dt }
      (s2.1 :: gAcc) (s2.2.2 :: iAcc)

/-- `PatientModel.simulate`: run a 24-hour episode at the model's fixed step
from a local copy of the state, summing the meal kernels (tau = 45) at every
step and zero-padding the dose list; returns the glucose trace, the insulin
trace, and the model after the run. -/
noncomputable def PatientModel.simulate (odeint : Integrator)
    (pm : PatientModel) (insulin_doses : List ℝ)
    (meal_schedule : List (ℝ × ℝ)) : List ℝ × List ℝ × PatientModel :=
  simulateAux odeint insulin_doses meal_schedule
    (List.range (numSteps pm.dt)) (pm.G, pm.X, pm.I) pm [] []

/-! ## Helper lemmas -/

theorem qmax_le_iff {a b c : ℚ} : qmax a b ≤ c ↔ a ≤ c ∧ b ≤ c := by
  unfold qmax; split_ifs with h <;> constructor <;>
    first
      | (intro hx; exact ⟨by linarith, by linarith⟩)
      | (intro hx; exact hx.2)
      | (intro hx; exact hx.1)

theorem le_qmax_right (a b : ℚ) : b ≤ qmax a b := by
  unfold qmax; split_ifs with h <;> linarith

theorem le_qmax_left (a b : ℚ) : a ≤ qmax a b := by
  unfold qmax; split_ifs with h <;> linarith

theorem qmin_le_right (a b : ℚ) : qmin a b ≤ b := by
  unfold qmin; split_ifs with h <;> linarith

theorem qmin_nonneg {a b : ℚ} (ha : 0 ≤ a) (hb : 0 ≤ b) : 0 ≤ qmin a b := by
  unfold qmin; split_ifs with h <;> assumption

theorem qmin_zero {y : ℚ} (h : 0 ≤ y) : qmin 0 y = 0 := if_pos h

theorem trimf_nonneg (a b c x : ℚ) : 0 ≤ trimf a b c x := by
  unfold trimf
  split_ifs with h1 h2 h3
  · norm_num
  · exact div_nonneg (by linarith [h2.1]) (by linarith [h2.1, h2.2])
  · exact div_nonneg (by linarith [h3.2]) (by linarith [h3.1, h3.2])
  · norm_num

theorem trapmf_nonneg (a b c d x : ℚ) : 0 ≤ trapmf a b c d x := by
  unfold trapmf
  split_ifs with h1 h2 h3 h4
  · exact div_nonneg (by linarith) (by linarith)
  · norm_num
  · norm_num
  · exact div_nonneg (by linarith) (by linarith)
  · norm_num

theorem clip_mem_Icc (x hi : ℚ) (h : 0 ≤ hi) : clip x 0 hi ∈ Set.Icc 0 hi := by
  unfold clip qmin qmax
  split_ifs <;> constructor <;> linarith

theorem clip_eq_self {l : ℚ} (h1 : 0 ≤ l) (h2 : l ≤ 400) : clip l 0 400 = l := by
  unfold clip qmin qmax
  split_ifs <;> linarith

/-- For glucose levels in the core of Very High, only the `VH & Z → H` rule
fires at rate 0: every stage-1 strength vector is `⟨0, 0, 0, 0, 1, 0⟩`. -/
theorem fis1Strengths_veryHigh {l : ℚ} (h1 : 180 ≤ l) (h2 : l ≤ 400) :
    fis1Strengths l (clip 0 (-5) 5)
      = { z := 0, vl := 0, low := 0, m := 0, hi := 1, vh := 0 } := by
  have hvl : trapmf 0 0 50 70 l = 0 := by
    unfold trapmf
    rw [if_neg (not_lt.mpr (by linarith)), if_neg (not_le.mpr (by linarith)),
      if_neg (not_lt.mpr (by linarith))]
  have hlo : trimf 60 75 90 l = 0 := by
    unfold trimf
    rw [if_neg (by intro hEq; rw [hEq] at h1; norm_num at h1),
      if_neg (by intro hc; linarith [hc.2]), if_neg (by intro hc; linarith [hc.2])]
  have hn : trimf 85 100 115 l = 0 := by
    unfold trimf
    rw [if_neg (by intro hEq; rw [hEq] at h1; norm_num at h1),
      if_neg (by intro hc; linarith [hc.2]), if_neg (by intro hc; linarith [hc.2])]
  have hhig : trimf 110 130 160 l = 0 := by
    unfold trimf
    rw [if_neg (by intro hEq; rw [hEq] at h1; norm_num at h1),
      if_neg (by intro hc; linarith [hc.2]), if_neg (by intro hc; linarith [hc.2])]
  have hvh : trapmf 150 180 400 400 l = 1 := by
    unfold trapmf
    rw [if_neg (not_lt.mpr (by linarith)), if_pos (by linarith)]
  simp only [fis1Strengths, hvl, hlo, hn, hhig, hvh]
  with_unfolding_all decide

/-! ## C2: the returned dose always lies in `[0, max_dose]` -/

/-- C2: for every input triple, including out-of-range values, the dose
returned by `compute_dose` lies in the closed interval `[0, max_dose]`
(for a non-negative `max_dose`), by virtue of the final safety clip. -/
theorem compute_dose_mem_Icc (maxDose bg_level bg_rate bg_accel : ℚ)
    (h : 0 ≤ maxDose) :
    compute_dose maxDose bg_level bg_rate bg_accel ∈ Set.Icc 0 maxDose := by
  simp only [compute_dose, stage2Dose]
  exact clip_mem_Icc _ _ h

/-- Witness for C2 at `max_dose = 1`, inputs `(500, 7, -2)` (all out of
range). -/
theorem compute_dose_mem_Icc_witness :
    compute_dose 1 500 7 (-2) ∈ Set.Icc (0:ℚ) 1 :=
  compute_dose_mem_Icc 1 500 7 (-2) (by norm_num)

/-! ## C9: `reset` and the per-episode controller state -/

/-- C9: evaluation at the failing input.  `reset` clears `prev_bg` and writes
0 into the (otherwise unused) attribute `prev_state`, but leaves `prev_rate`
at its stale value 5; the claimed behavioral consequence still holds: the
first `policy` call after a reset computes its dose with rate 0 and
acceleration 0, because only `prev_bg` guards the fallback. -/
theorem reset_keeps_prev_rate :
    (reset { init_state := 90, state := 90, prev_bg := some 100, prev_rate := 5,
             prev_state := none }).prev_rate = 5 ∧
    (reset { init_state := 90, state := 90, prev_bg := some 100, prev_rate := 5,
             prev_state := none }).prev_bg = none ∧
    (reset { init_state := 90, state := 90, prev_bg := some 100, prev_rate := 5,
             prev_state := none }).prev_state = some 0 ∧
    (∀ (c : ControllerState) (bg sample_time : ℚ),
      (policy (reset c) bg sample_time).1
        = compute_dose (2/5) bg 0 0 / sample_time) :=
  ⟨rfl, rfl, rfl, fun _ _ _ => rfl⟩

/-! ## C1: behaviour at Very Low glucose -/

/-- C1 (counterexample): at glucose 0 — below any reading of the lower bound
of the Very Low set — with rate 0 and acceleration 0, `compute_dose` does not
return 0: centroid defuzzification of the Zero consequent yields a small
positive dose (25/552 ≈ 0.045 units at `max_dose = 1`). -/
theorem compute_dose_veryLow_ne_zero : compute_dose 1 0 0 0 ≠ 0 := by
  with_unfolding_all decide

/-- C1 (amended): for every glucose level ≤ 50 (the whole core of Very Low)
and every rate, only the Very Low safety rule fires in stage 1, so the stage-1
output is the Zero consequent's centroid 1/150 regardless of rate, and (at
acceleration 0 and `max_dose = 1`) the final dose is the constant 25/552 —
a small positive value, not exactly 0. -/
theorem compute_dose_veryLow (bg_level bg_rate : ℚ) (h : bg_level ≤ 50) :
    fis1Out 1 (clip bg_level 0 400) (clip bg_rate (-5) 5) = some (1/150) ∧
    compute_dose 1 bg_level bg_rate 0 = 25/552 ∧ (0:ℚ) < 25/552 := by
  have h0 : 0 ≤ clip bg_level 0 400 := by
    unfold clip
    exact qmin_nonneg (by norm_num) (le_qmax_right _ _)
  have h50 : clip bg_level 0 400 ≤ 50 := by
    unfold clip
    refine le_trans (qmin_le_right _ _) ?_
    rw [qmax_le_iff]
    exact ⟨h, by norm_num⟩
  set cl := clip bg_level 0 400 with hcl
  set cr := clip bg_rate (-5) 5 with hcr
  have hvl : trapmf 0 0 50 70 cl = 1 := by
    unfold trapmf
    rw [if_neg (not_lt.mpr h0), if_pos h50]
  have hlo : trimf 60 75 90 cl = 0 := by
    unfold trimf
    rw [if_neg (by intro hEq; rw [hEq] at h50; norm_num at h50),
      if_neg (by intro hc; linarith [hc.1]), if_neg (by intro hc; linarith [hc.1])]
  have hn : trimf 85 100 115 cl = 0 := by
    unfold trimf
    rw [if_neg (by intro hEq; rw [hEq] at h50; norm_num at h50),
      if_neg (by intro hc; linarith [hc.1]), if_neg (by intro hc; linarith [hc.1])]
  have hhig : trimf 110 130 160 cl = 0 := by
    unfold trimf
    rw [if_neg (by intro hEq; rw [hEq] at h50; norm_num at h50),
      if_neg (by intro hc; linarith [hc.1]), if_neg (by intro hc; linarith [hc.1])]
  have hvh : trapmf 150 180 400 400 cl = 0 := by
    unfold trapmf
    rw [if_pos (by linarith), if_neg (not_lt.mpr (by linarith))]
  have e1 : qmin 0 (qmax (trapmf (-5) (-5) (-1/2) (-1/10) cr)
      (trimf (-3/20) 0 (3/20) cr)) = 0 :=
    qmin_zero (le_trans (trimf_nonneg _ _ _ _) (le_qmax_right _ _))
  have e2 : qmin 0 (trimf (1/10) (2/5) (7/10) cr) = 0 :=
    qmin_zero (trimf_nonneg _ _ _ _)
  have e3 : qmin 0 (trapmf (-5) (-5) (-1/2) (-1/10) cr) = 0 :=
    qmin_zero (trapmf_nonneg _ _ _ _ _)
  have e4 : qmin 0 (trapmf (3/5) 1 5 5 cr) = 0 :=
    qmin_zero (trapmf_nonneg _ _ _ _ _)
  have e5 : qmin 0 (trimf (-3/20) 0 (3/20) cr) = 0 :=
    qmin_zero (trimf_nonneg _ _ _ _)
  have e6 : qmin 0 (qmax (trimf (1/10) (2/5) (7/10) cr)
      (trapmf (3/5) 1 5 5 cr)) = 0 :=
    qmin_zero (le_trans (trapmf_nonneg _ _ _ _ _) (le_qmax_right _ _))
  have hs : fis1Strengths cl cr
      = { z := 1, vl := 0, low := 0, m := 0, hi := 0, vh := 0 } := by
    simp only [fis1Strengths, hvl, hlo, hn, hhig, hvh, e1, e2, e3, e4, e5, e6]
    with_unfolding_all decide
  have hout : fis1Out 1 cl cr = some (1/150) := by
    unfold fis1Out
    rw [hs]
    with_unfolding_all decide
  refine ⟨hout, ?_, by norm_num⟩
  unfold compute_dose
  rw [← hcl, ← hcr, hout]
  with_unfolding_all decide

/-- Witness for C1 (amended) at glucose 40, rate 2. -/
theorem compute_dose_veryLow_witness :
    fis1Out 1 (clip 40 0 400) (clip 2 (-5) 5) = some (1/150) ∧
    compute_dose 1 40 2 0 = 25/552 ∧ (0:ℚ) < 25/552 :=
  compute_dose_veryLow 40 2 (by norm_num)

/-! ## C3: monotonicity of the dose in the glucose level -/

/-- C3 (counterexample): at fixed rate 1 and acceleration 1, the dose at
glucose 130 is strictly below the dose at glucose 115 — both levels lie
between Normal and Very High — so `compute_dose` is not monotone
non-decreasing in the level over that range. -/
theorem compute_dose_not_monotone :
    (85:ℚ) ≤ 115 ∧ (115:ℚ) ≤ 130 ∧ (130:ℚ) ≤ 400 ∧
    compute_dose 1 130 1 1 < compute_dose 1 115 1 1 := by
  refine ⟨by norm_num, by norm_num, by norm_num, ?_⟩
  with_unfolding_all decide

/-- C3 (amended): at the stable operating point rate 0 and acceleration 0
(`max_dose = 1`), the dose is constant on the Very High core `[180, 400]`,
and across the sampled levels 88, 90, 100, 110, 112, 114, 115, 130, 160, 180
it takes the listed values, which are monotone non-decreasing. -/
theorem compute_dose_monotone_sampled :
    (∀ l1 l2 : ℚ, 180 ≤ l1 → l1 ≤ l2 → l2 ≤ 400 →
      compute_dose 1 l1 0 0 = compute_dose 1 l2 0 0) ∧
    (compute_dose 1 88 0 0 = 1/10 ∧
     compute_dose 1 90 0 0 = 1/10 ∧ compute_dose 1 100 0 0 = 1/10 ∧
     compute_dose 1 110 0 0 = 1/10 ∧ compute_dose 1 112 0 0 = 1/10 ∧
     compute_dose 1 114 0 0 = 3/10 ∧ compute_dose 1 115 0 0 = 3/10 ∧
     compute_dose 1 130 0 0 = 3/10 ∧ compute_dose 1 160 0 0 = 11/20 ∧
     compute_dose 1 180 0 0 = 11/20) ∧
    chainLe [1/10, 1/10, 1/10, 1/10, 1/10, 3/10, 3/10, 3/10,
        11/20, 11/20] = true := by
  refine ⟨?_, ⟨?_, ?_, ?_, ?_, ?_, ?_, ?_, ?_, ?_, ?_⟩,
    by with_unfolding_all decide⟩
  · intro l1 l2 h1 h12 h2
    unfold compute_dose fis1Out
    rw [clip_eq_self (by linarith) (by linarith),
      clip_eq_self (by linarith) (by linarith),
      fis1Strengths_veryHigh h1 (by linarith),
      fis1Strengths_veryHigh (by linarith) h2]
  all_goals with_unfolding_all decide

/-- Witness for C3 (amended): constancy on the Very High core at 200 and
300. -/
theorem compute_dose_monotone_sampled_witness :
    compute_dose 1 200 0 0 = compute_dose 1 300 0 0 :=
  compute_dose_monotone_sampled.1 200 300 (by norm_num) (by norm_num)
    (by norm_num)

/-! ## C7: degenerate inference handling -/

/-- C7 (counterexample): when stage 1 yields no defined output, the handler
substitutes pre-dose 0 and continues — but the final dose for that step is
stage 2's output for a zero pre-dose (1/150 at acceleration 0), not 0. -/
theorem stage2Dose_stage1_failure_ne_zero : stage2Dose 1 none 0 ≠ 0 := by
  with_unfolding_all decide

/-- C7 (amended): a degenerate stage substitutes 0 and `compute_dose` never
fails: a degenerate stage 2 makes the step's dose exactly 0, while a
degenerate stage 1 leads to the dose stage 2 derives from pre-dose 0, namely
1/150 at acceleration 0 and `max_dose = 1` — positive, not 0. -/
theorem stage2Dose_degenerate_handling :
    (∀ (maxDose : ℚ) (o : Option ℚ) (a : ℚ), 0 ≤ maxDose →
      defuzzEnv maxDose (fis2Strengths (clip (o.getD 0) 0 maxDose) a) = none →
      stage2Dose maxDose o a = 0) ∧
    stage2Dose 1 none 0 = 1/150 := by
  constructor
  · intro maxDose o a hmd hdeg
    simp only [stage2Dose, hdeg, Option.getD_none]
    unfold clip qmin qmax
    split_ifs <;> linarith
  · with_unfolding_all decide

/-- Witness for C7 (amended): with `max_dose = 2` a stage-1 result of 1.8
makes stage 2 degenerate (no pre-dose set reaches 1.8 on that universe), and
the dose is exactly 0. -/
theorem stage2Dose_degenerate_handling_witness :
    stage2Dose 2 (some (9/5)) 0 = 0 :=
  stage2Dose_degenerate_handling.1 2 (some (9/5)) 0 (by norm_num)
    (by with_unfolding_all decide)

/-! ## C4: the cost function -/

/-- C4 (counterexample): on the one-sample trace `[70]` (below the floor) the
source multiplies the error by 10 before squaring, giving `√40000 = 200`,
whereas the spec's formula (10× on the squared error) gives `√4000`. -/
theorem cost_function_ne_spec :
    cost_function [70] 90 80 ≠ cost_function_spec [70] 90 80 := by
  have h1 : cost_function [70] 90 80 = Real.sqrt 40000 := by
    unfold cost_function
    simp only [List.map_cons, List.map_nil, List.sum_cons, List.sum_nil,
      List.length_cons, List.length_nil]
    rw [if_pos (by norm_num : (70:ℝ) < 80)]
    norm_num
  have h2 : cost_function_spec [70] 90 80 = Real.sqrt 4000 := by
    unfold cost_function_spec
    simp only [List.map_cons, List.map_nil, List.sum_cons, List.sum_nil,
      List.length_cons, List.length_nil]
    rw [if_pos (by norm_num : (70:ℝ) < 80)]
    norm_num
  rw [h1, h2]
  exact ne_of_gt (Real.sqrt_lt_sqrt (by norm_num) (by norm_num))

/-- C4 (amended): `cost_function` is the root of the mean of the squared
errors in which the squared error of a sample strictly below the floor is
multiplied by 100 (the error is multiplied by 10 before squaring), and on a
trace entirely at the reference level it returns 0 whenever the floor does not
exceed the reference. -/
theorem cost_function_formula (g : List ℝ) (ref floor : ℝ) :
    cost_function g ref floor
      = Real.sqrt ((g.map (fun x =>
          if x < floor then 100 * (x - ref) ^ 2 else (x - ref) ^ 2)).sum
            / g.length) ∧
    (floor ≤ ref → ∀ n : ℕ,
      cost_function (List.replicate n ref) ref floor = 0) := by
  have key : ∀ (l : List ℝ), cost_function l ref floor
      = Real.sqrt ((l.map (fun x =>
          if x < floor then 100 * (x - ref) ^ 2 else (x - ref) ^ 2)).sum
            / l.length) := by
    intro l
    unfold cost_function
    simp only [List.map_map]
    congr 2
    congr 1
    apply List.map_congr_left
    intro x _
    simp only [Function.comp]
    split_ifs <;> ring
  refine ⟨key g, fun hfr n => ?_⟩
  rw [key (List.replicate n ref)]
  rw [List.map_replicate, if_neg (not_lt.mpr hfr), sub_self]
  simp

/-- Witness for C4 (amended): a constant trace at the reference costs 0. -/
theorem cost_function_formula_witness :
    cost_function (List.replicate 3 (90:ℝ)) 90 80 = 0 :=
  (cost_function_formula (List.replicate 3 (90:ℝ)) 90 80).2 (by norm_num) 3

/-! ## C5: driver rate and acceleration estimation -/

/-- C5 (counterexample): on the trace constantly equal to 120 with the
5-minute step, iteration 1 — after the first step — computes
`bg_rate = (120 − 90)/5 = 6 ≠ 0` and `bg_accel = 6/5 ≠ 0`, because the driver
seeds `G_prev` with the hard-coded 90, not with the trace's constant value. -/
theorem driver_constant_trace_not_zero :
    bg_rate (fun _ => (120:ℝ)) (1/12) 1 = 6 ∧
    bg_accel (fun _ => (120:ℝ)) (1/12) 1 = 6/5 ∧
    (6:ℝ) ≠ 0 ∧ (6/5:ℝ) ≠ 0 := by
  refine ⟨?_, ?_, by norm_num, by norm_num⟩
  · norm_num [bg_rate, driverG, driverPrev]
  · norm_num [bg_accel, bg_rate, driverG, driverPrev]

/-- C5 (amended): the first driver iteration invokes the controller with rate
0 and acceleration 0; every later iteration derives the rate from the previous
iterations' realized glucose (`(G_trace i - G_trace (i-1)) / step_minutes`,
with the hard-coded 90 in place of `G_trace (-1)`) and the acceleration from
the previous rate; the estimates at iteration `i` depend only on trace values
of index < `i`.  On a trace constant at any value `c` the rate is 0 from
iteration 2 on and the acceleration from iteration 3 on, but iteration 1 —
immediately after the first step — computes `bg_rate = (c − 90)/step_minutes`,
which is 0 only when `c` equals the driver's hard-coded seed 90; on the trace
constantly equal to 90 both estimates are 0 at every iteration. -/
theorem driver_rate_accel (G_trace : ℕ → ℝ) (dt : ℝ) :
    (bg_rate G_trace dt 0 = 0 ∧ bg_accel G_trace dt 0 = 0) ∧
    (bg_rate G_trace dt 1 = (G_trace 0 - 90) / (dt * 60)) ∧
    (∀ i : ℕ, bg_rate G_trace dt (i + 2)
        = (G_trace (i + 1) - G_trace i) / (dt * 60)) ∧
    (∀ i : ℕ, bg_accel G_trace dt (i + 1)
        = (bg_rate G_trace dt (i + 1) - bg_rate G_trace dt i) / (dt * 60)) ∧
    (∀ (G' : ℕ → ℝ) (i : ℕ), (∀ j, j < i → G_trace j = G' j) →
        bg_rate G_trace dt i = bg_rate G' dt i ∧
        bg_accel G_trace dt i = bg_accel G' dt i) ∧
    (∀ c : ℝ, (∀ j, G_trace j = c) →
        (∀ i : ℕ, bg_rate G_trace dt (i + 2) = 0) ∧
        (∀ i : ℕ, bg_accel G_trace dt (i + 3) = 0) ∧
        bg_rate G_trace dt 1 = (c - 90) / (dt * 60)) ∧
    ((∀ j, G_trace j = 90) → ∀ i : ℕ,
        bg_rate G_trace dt i = 0 ∧ bg_accel G_trace dt i = 0) := by
  have hG0 : driverG G_trace 0 = 90 := rfl
  have hrate2 : ∀ i : ℕ, bg_rate G_trace dt (i + 2)
      = (G_trace (i + 1) - G_trace i) / (dt * 60) := by
    intro i
    simp [bg_rate, driverG, driverPrev]
  refine ⟨⟨?_, ?_⟩, ?_, hrate2, ?_, ?_, ?_, ?_⟩
  · simp [bg_rate, driverG, driverPrev]
  · simp [bg_accel, bg_rate, driverG, driverPrev]
  · simp [bg_rate, driverG, driverPrev]
  · intro i
    rfl
  · -- congruence in the trace prefix
    intro G' i hagree
    have hprev : ∀ k, k ≤ i → driverPrev G_trace dt k = driverPrev G' dt k := by
      intro k hk
      induction k with
      | zero => rfl
      | succ m ih =>
        have hGm : driverG G_trace m = driverG G' m := by
          unfold driverG
          by_cases hm0 : m = 0
          · rw [if_pos hm0, if_pos hm0]
          · rw [if_neg hm0, if_neg hm0]
            exact hagree (m - 1) (by omega)
        unfold driverPrev
        rw [hGm, ih (by omega)]
    have hGi : driverG G_trace i = driverG G' i := by
      unfold driverG
      by_cases hi0 : i = 0
      · rw [if_pos hi0, if_pos hi0]
      · rw [if_neg hi0, if_neg hi0]
        exact hagree (i - 1) (by omega)
    constructor
    · unfold bg_rate
      rw [hGi, hprev i (le_refl i)]
    · unfold bg_accel bg_rate
      rw [hGi, hprev i (le_refl i)]
  · -- a trace constant at any value c
    intro c hconst
    have hr : ∀ k : ℕ, bg_rate G_trace dt (k + 2) = 0 := by
      intro k
      rw [hrate2 k, hconst (k + 1), hconst k, sub_self, zero_div]
    refine ⟨hr, ?_, ?_⟩
    · intro i
      have h4 : bg_accel G_trace dt (i + 3)
          = (bg_rate G_trace dt (i + 3) - bg_rate G_trace dt (i + 2)) / (dt * 60) :=
        rfl
      have hz3 : bg_rate G_trace dt (i + 3) = 0 := hr (i + 1)
      rw [h4, hz3, hr i, sub_self, zero_div]
    · have h2 : bg_rate G_trace dt 1 = (G_trace 0 - 90) / (dt * 60) := by
        simp [bg_rate, driverG, driverPrev]
      rw [h2, hconst 0]
  · intro hconst i
    have hprev : ∀ k, driverPrev G_trace dt k = (90, 0) := by
      intro k
      induction k with
      | zero => rfl
      | succ m ih =>
        have hGm : driverG G_trace m = 90 := by
          unfold driverG
          by_cases hm0 : m = 0
          · rw [if_pos hm0]
          · rw [if_neg hm0]
            exact hconst (m - 1)
        unfold driverPrev
        rw [hGm, ih]
        simp
    have hGi : driverG G_trace i = 90 := by
      unfold driverG
      by_cases hi0 : i = 0
      · rw [if_pos hi0]
      · rw [if_neg hi0]
        exact hconst (i - 1)
    constructor
    · unfold bg_rate
      rw [hGi, hprev i]
      norm_num
    · unfold bg_accel bg_rate
      rw [hGi, hprev i]
      norm_num

/-- Witness for C5 (amended): on the constant trace 120 the rate vanishes
from iteration 2 on, and on the constant trace 90 both estimates vanish at
iteration 3, with the 5-minute step. -/
theorem driver_rate_accel_witness :
    bg_rate (fun _ => (120:ℝ)) (1/12) 2 = 0 ∧
    bg_rate (fun _ => (90:ℝ)) (1/12) 3 = 0 ∧
    bg_accel (fun _ => (90:ℝ)) (1/12) 3 = 0 :=
  ⟨((driver_rate_accel (fun _ => (120:ℝ)) (1/12)).2.2.2.2.2.1 120
      (fun _ => rfl)).1 0,
   ((driver_rate_accel (fun _ => (90:ℝ)) (1/12)).2.2.2.2.2.2 (fun _ => rfl) 3).1,
   ((driver_rate_accel (fun _ => (90:ℝ)) (1/12)).2.2.2.2.2.2 (fun _ => rfl) 3).2⟩

/-! ## C6: the meal-absorption kernel -/

/-- C6: the kernel is 0 before the meal time and follows the exponential-decay
formula from the meal time on; integrated over infinite time (in minutes of
elapsed time, the unit of the returned rate) it equals
`carbs · glucose_per_gram = carbs · 3.5`; and the driver's meal rate at any
instant is the sum of the kernel over all scheduled meals. -/
theorem meal_absorption_spec (meal_time carbs tau : ℝ) (htau : 0 < tau) :
    (∀ t, t < meal_time → meal_absorption t meal_time carbs tau = 0) ∧
    (∀ t, meal_time ≤ t → meal_absorption t meal_time carbs tau
        = carbs * (7/2) / tau * Real.exp (-((t - meal_time) * 60) / tau)) ∧
    (∫ m in Set.Ioi (0:ℝ),
        meal_absorption (meal_time + m / 60) meal_time carbs tau)
      = carbs * (7/2) ∧
    (∀ (schedule : List (ℝ × ℝ)) (t : ℝ), meal_rate_total schedule tau t
        = (schedule.map (fun meal => meal_absorption t meal.1 meal.2 tau)).sum) := by
  refine ⟨?_, ?_, ?_, ?_⟩
  · intro t ht
    unfold meal_absorption
    rw [if_pos ht]
  · intro t ht
    unfold meal_absorption
    rw [if_neg (not_lt.mpr ht)]
  · have heq : Set.EqOn
        (fun m => meal_absorption (meal_time + m / 60) meal_time carbs tau)
        (fun m => carbs * (7/2) / tau * Real.exp (-(tau⁻¹ * m)))
        (Set.Ioi 0) := by
      intro m hm
      have hm0 : (0:ℝ) < m := hm
      simp only
      unfold meal_absorption
      rw [if_neg (by intro hc; nlinarith)]
      congr 2
      field_simp
      ring
    rw [MeasureTheory.setIntegral_congr_fun measurableSet_Ioi heq,
      MeasureTheory.integral_mul_left]
    have hint : (∫ m in Set.Ioi (0:ℝ), Real.exp (-(tau⁻¹ * m))) = tau := by
      have hcomp := MeasureTheory.integral_comp_mul_left_Ioi
        (fun y => Real.exp (-y)) 0 (inv_pos.mpr htau)
      simp only [mul_zero, inv_inv, smul_eq_mul] at hcomp
      rw [hcomp, integral_exp_neg_Ioi_zero, mul_one]
    rw [hint]
    field_simp
    ring
  · intro schedule t
    unfold meal_rate_total
    have aux : ∀ (l : List (ℝ × ℝ)) (a : ℝ),
        l.foldl (fun acc meal => acc + meal_absorption t meal.1 meal.2 tau) a
          = a + (l.map (fun meal => meal_absorption t meal.1 meal.2 tau)).sum := by
      intro l
      induction l with
      | nil => intro a; simp
      | cons p rest ih =>
        intro a
        rw [List.foldl_cons, ih, List.map_cons, List.sum_cons]
        ring
    rw [aux]
    ring

/-- Witness for C6 at the breakfast meal (50 g at hour 7, tau = 45). -/
theorem meal_absorption_spec_witness :
    meal_absorption 6 7 50 45 = 0 :=
  (meal_absorption_spec 7 50 45 (by norm_num)).1 6 (by norm_num)

/-! ## C8: patient-model configuration handling -/

/-- C8 (counterexample): constructing a patient model with the invalid time
step −1 succeeds and stores −1 unchanged — nothing is detected or reported at
construction — and the dynamics silently coerces the non-positive step to 1
minute instead of failing. -/
theorem patientModel_invalid_config_accepted :
    (PatientModel.make 90 15 (-1)).dt = -1 ∧ dtMinutes (-1) = 1 := by
  refine ⟨rfl, ?_⟩
  simp only [dtMinutes]
  norm_num

/-- C8 (amended): `PatientModel.__init__` stores its arguments without any
validation (also an invalid or negative time step), and the conversion inside
`dynamics` silently replaces a non-positive time step by 1 minute while a
positive step is used as `dt · 60` minutes; the right-hand side itself is a
total function of the state. -/
theorem patientModel_no_validation (g i dt : ℝ) :
    ((PatientModel.make g i dt).G = g ∧ (PatientModel.make g i dt).I = i ∧
     (PatientModel.make g i dt).dt = dt ∧ (PatientModel.make g i dt).Ib = i) ∧
    (dt ≤ 0 → dtMinutes dt = 1) ∧
    (0 < dt → dtMinutes dt = dt * 60) := by
  refine ⟨⟨rfl, rfl, rfl, rfl⟩, ?_, ?_⟩
  · intro hdt
    simp only [dtMinutes]
    rw [if_neg (not_lt.mpr hdt)]
    norm_num
  · intro hdt
    simp only [dtMinutes]
    rw [if_pos hdt, if_neg (not_le.mpr (by positivity))]

/-- Witness for C8 (amended): a −2-hour step is coerced to 1 minute; a
half-hour step is converted to 30 minutes. -/
theorem patientModel_no_validation_witness :
    dtMinutes (-2) = 1 ∧ dtMinutes (1/2) = (1/2) * 60 :=
  ⟨(patientModel_no_validation 90 15 (-2)).2.1 (by norm_num),
   (patientModel_no_validation 90 15 (1/2)).2.2 (by norm_num)⟩

/-! ## C10: `simulate` leaves the public state unchanged -/

theorem simulateAux_frame (odeint : Integrator) (doses : List ℝ)
    (sched : List (ℝ × ℝ)) :
    ∀ (l : List ℕ) (s : ℝ × ℝ × ℝ) (pm : PatientModel) (ga ia : List ℝ),
      (simulateAux odeint doses sched l s pm ga ia).2.2.G = pm.G ∧
      (simulateAux odeint doses sched l s pm ga ia).2.2.X = pm.X ∧
      (simulateAux odeint doses sched l s pm ga ia).2.2.I = pm.I ∧
      (simulateAux odeint doses sched l s pm ga ia).2.2.dt = pm.dt ∧
      (simulateAux odeint doses sched l s pm ga ia).2.2.t
        = l.foldl (fun _acc (idx : ℕ) => (idx : ℝ) * pm.dt + pm.dt) pm.t := by
  intro l
  induction l with
  | nil => intro s pm ga ia; exact ⟨rfl, rfl, rfl, rfl, rfl⟩
  | cons i rest ih =>
    intro s pm ga ia
    simp only [simulateAux, List.foldl_cons]
    exact ih _ { pm with t := (i : ℝ) * pm.dt + pm.dt } _ _

theorem foldl_range_overwrite (f : ℕ → ℝ) (a : ℝ) (n : ℕ) (hn : n ≠ 0) :
    (List.range n).foldl (fun _acc idx => f idx) a = f (n - 1) := by
  cases n with
  | zero => exact absurd rfl hn
  | succ m =>
    rw [List.range_succ, List.foldl_append]
    rfl

/-- C10: `PatientModel.simulate` integrates the batch episode from a local
copy of the initial state: after it returns, the public fields `G`, `X`, `I`
(and `dt`) equal their pre-call values and only `t` has advanced, to
`numSteps dt · dt`; `step`, by contrast, overwrites `G` (with the integrated
state) in place and advances `t` by `dt`. -/
theorem simulate_preserves_state (odeint : Integrator) (pm : PatientModel)
    (doses : List ℝ) (sched : List (ℝ × ℝ)) (h : 0 < pm.dt) :
    ((pm.simulate odeint doses sched).2.2.G = pm.G ∧
     (pm.simulate odeint doses sched).2.2.X = pm.X ∧
     (pm.simulate odeint doses sched).2.2.I = pm.I ∧
     (pm.simulate odeint doses sched).2.2.dt = pm.dt) ∧
    (pm.simulate odeint doses sched).2.2.t = (numSteps pm.dt : ℝ) * pm.dt ∧
    (∀ dose meal, (pm.step odeint dose meal).2.G
          = (odeint pm (pm.G, pm.X, pm.I) dose meal).1 ∧
        (pm.step odeint dose meal).2.t = pm.t + pm.dt) := by
  have haux := simulateAux_frame odeint doses sched
    (List.range (numSteps pm.dt)) (pm.G, pm.X, pm.I) pm [] []
  have hne : numSteps pm.dt ≠ 0 := by
    unfold numSteps
    have h24 : (0:ℝ) < 24 / pm.dt := by positivity
    exact Nat.pos_iff_ne_zero.mp (Nat.ceil_pos.mpr h24)
  refine ⟨⟨haux.1, haux.2.1, haux.2.2.1, haux.2.2.2.1⟩, ?_, fun d m => ⟨rfl, rfl⟩⟩
  have ht := haux.2.2.2.2
  rw [foldl_range_overwrite _ _ _ hne] at ht
  have hcast : ((numSteps pm.dt - 1 : ℕ) : ℝ) = (numSteps pm.dt : ℝ) - 1 := by
    rw [Nat.cast_sub (Nat.one_le_iff_ne_zero.mpr hne)]
    norm_num
  show (pm.simulate odeint doses sched).2.2.t = (numSteps pm.dt : ℝ) * pm.dt
  rw [PatientModel.simulate, ht, hcast]
  ring

/-- Witness for C10: the identity integrator on a freshly constructed model
with the 5-minute step. -/
theorem simulate_preserves_state_witness :
    ((PatientModel.make 90 15 (1/12)).simulate (fun _ s _ _ => s) [] []).2.2.G
      = (PatientModel.make 90 15 (1/12)).G :=
  (simulate_preserves_state (fun _ s _ _ => s) (PatientModel.make 90 15 (1/12))
    [] [] (by norm_num [PatientModel.make])).1.1

end ArtificialPancreas
